import Mathlib

/-!
Shallow embedding of the weapon-target-assignment simulation
(`src/dist/index.js`): the ECS component store, the static configuration
tables, the weapon assignment pass, the damage-resolution pass and the
entity-lifecycle helpers, with theorems checking the specification's
claims against them.

World coordinates, health values, damage values and ranges are
embedded as `ℤ` (the source only ever adds, subtracts and compares
them, and `ℤ` evaluates inside the kernel, which concrete witness
computations need); weapon accuracies and hit probabilities, which are
genuinely fractional, are embedded as `ℚ`.  JS objects keyed by
numeric ids are embedded as association lists kept in ascending key
order (JS `for...in` visits integer-like keys in ascending numeric
order).  Fallible code paths (property access on `undefined`) return
`Option`: `none` embeds a thrown `TypeError`.
-/

namespace WTA

/-- `getK m k` embeds the JS object read `m[k]` (absent key gives
`undefined`, embedded as `none`). -/
def getK {α : Type} : List (Nat × α) → Nat → Option α
  | [], _ => none
  | (k', v') :: rest, k => if k = k' then some v' else getK rest k

/-- `setK m k v` embeds the JS object write `m[k] = v`, keeping the
ascending numeric key order that JS `for...in` iteration exposes. -/
def setK {α : Type} : List (Nat × α) → Nat → α → List (Nat × α)
  | [], k, v => [(k, v)]
  | (k', v') :: rest, k, v =>
    if k < k' then (k, v) :: (k', v') :: rest
    else if k = k' then (k, v) :: rest
    else (k', v') :: setK rest k v

/-- `delK m k` embeds the JS `delete m[k]` statement (a JS object holds
at most one entry per key, so deleting every matching entry of the
association list is the same operation). -/
def delK {α : Type} : List (Nat × α) → Nat → List (Nat × α)
  | [], _ => []
  | (k', v') :: rest, k =>
    if k' = k then delK rest k else (k', v') :: delK rest k

/-! ## Entity types and static configuration tables -/

/-- `EntityType.AGENT` from the source. -/
def EntityType.AGENT : String := "agent"

/-- `EntityType.WEAPON` from the source. -/
def EntityType.WEAPON : String := "weapon"

/-- `EntityType.TARGET_PART` from the source. -/
def EntityType.TARGET_PART : String := "target-part"

/-- `EntityType.ENEMY` from the source. -/
def EntityType.ENEMY : String := "enemy"

/-- The `WeaponTypes` array from the source. -/
def WeaponTypes : List String :=
  ["rifle", "missile", "pistol", "laser", "rocket", "repeater", "cannon", "melee"]

/-- The `EnemyTypes` array from the source. -/
def EnemyTypes : List String := ["infantry", "devastator", "tank"]

/-- `EnemyPartsConfig[t] || []` from the source. -/
def EnemyPartsConfig : String → List String
  | "infantry" => ["head", "body", "arm", "leg"]
  | "tank" => ["heat sink", "turret", "tread", "armor"]
  | "devastator" => ["heavy armor", "head"]
  | _ => []

/-- `EntityStats[t].health`; `none` embeds an absent key (whose `.health`
read would throw). -/
def EntityStats : String → Option ℤ
  | "agent" => some 100
  | "infantry" => some 50
  | "devastator" => some 150
  | "tank" => some 200
  | _ => none

/-- One `WeaponStats` record: damage and accuracy. -/
structure WStats where
  damage : ℤ
  accuracy : ℚ
deriving DecidableEq

/-- The `WeaponStats` table from the source (accuracies written as
exact rationals: 0.8 = 4/5 and so on). -/
def WeaponStats : String → Option WStats
  | "rifle" => some ⟨10, 4/5⟩
  | "missile" => some ⟨30, 3/5⟩
  | "pistol" => some ⟨5, 9/10⟩
  | "laser" => some ⟨15, 7/10⟩
  | "rocket" => some ⟨40, 1/2⟩
  | "repeater" => some ⟨8, 17/20⟩
  | "cannon" => some ⟨50, 2/5⟩
  | "melee" => some ⟨20, 1⟩
  | _ => none

/-- The `WeaponRangeConfig` table: `(min, max)` range per weapon type. -/
def WeaponRangeConfig : String → Option (ℤ × ℤ)
  | "rifle" => some (30, 60)
  | "missile" => some (100, 150)
  | "pistol" => some (10, 20)
  | "laser" => some (50, 80)
  | "rocket" => some (70, 120)
  | "repeater" => some (40, 60)
  | "cannon" => some (120, 180)
  | "melee" => some (1, 1)
  | _ => none

/-- One entry of the `WeaponTargetConfig` table: the `primary` type list
and the `specificTargets` record (embedded as an ordered list of
(opponent type, required part types) pairs; an absent `specificTargets`
field is the empty list, which the scan loop treats identically). -/
structure TargetPrefs where
  primary : List String
  specificTargets : List (String × List String)
deriving DecidableEq

/-- The `WeaponTargetConfig` table from the source. -/
def WeaponTargetConfig : String → Option TargetPrefs
  | "rifle" => some ⟨["devastator", "infantry"], [("tank", ["heat sink"])]⟩
  | "missile" => some ⟨["tank", "devastator"], []⟩
  | "pistol" => some ⟨["infantry"], []⟩
  | "laser" => some ⟨["infantry", "devastator"], [("tank", ["turret"])]⟩
  | "rocket" => some ⟨["tank"], [("devastator", ["heavy armor"])]⟩
  | "repeater" => some ⟨["infantry", "devastator"], []⟩
  | "cannon" => some ⟨["tank"], []⟩
  | "melee" => some ⟨["agent", "enemy", "target-part"], []⟩
  | _ => none

/-- `getWeaponColor` from the source. -/
def getWeaponColor : String → String
  | "rifle" => "red"
  | "missile" => "blue"
  | "pistol" => "green"
  | "laser" => "purple"
  | "rocket" => "orange"
  | "repeater" => "brown"
  | "cannon" => "black"
  | "melee" => "gray"
  | _ => "gray"

/-! ## Component values and the store -/

/-- A `PositionComponent` value (the redundant `entityId` field always
equals the store key and is dropped). -/
structure Pos where
  x : ℤ
  y : ℤ
deriving DecidableEq

/-- A `TargetingComponent` value. -/
structure TargetingC where
  source : Nat
  target : Nat
  color : String
  enabled : Bool
deriving DecidableEq

/-- A `targetPartType` component value as built by
`addTargetPartToEntity` (the redundant `entityId` field always equals
the store key and is dropped). -/
structure TargetPartT where
  partType : String
  parentEntityId : Nat
deriving DecidableEq

/-- An entity record as built by `EntityComponentSystem.addEntity`.
`ownTargetPartType` embeds `entity.components.targetPartType`: the
per-entity `components` object is initialized to `{}` by `addEntity`
and no code in the repository ever writes to it, so `addEntity` sets
this field to `none`. -/
structure Entity where
  id : Nat
  type : String
  ownTargetPartType : Option TargetPartT
deriving DecidableEq

/-- The component store (`this.components` of the ECS), one field per
component name used by the program.  Each field embeds a JS object
keyed by entity id.  `weapon` stores the `weaponType` string,
`health` the `value` number, `weaponSlots` the `weaponIds` array
(`none` embeds a `null` slot). -/
structure Components where
  position : List (Nat × Pos)
  health : List (Nat × ℤ)
  weaponSlots : List (Nat × List (Option Nat))
  weapon : List (Nat × String)
  enemyType : List (Nat × String)
  targetPartType : List (Nat × TargetPartT)
  targeting : List (Nat × TargetingC)
deriving DecidableEq

/-- The whole `EntityComponentSystem` state: the entity registry, the
component store and the shared id counter. -/
structure State where
  entities : List Entity
  components : Components
  nodeId : Nat
deriving DecidableEq

/-- `EntityComponentSystem.addEntity`: allocates the next id, pushes an
entity record onto the registry, returns the id and the new state. -/
def addEntity (s : State) (type : String) : Nat × State :=
  (s.nodeId,
   { s with entities := s.entities ++ [⟨s.nodeId, type, none⟩],
            nodeId := s.nodeId + 1 })

/-- `killEntity` from the source: removes the first entity record with
the given id (`entities.splice(entities.indexOf(entity), 1)`, where the
entity was obtained from a `find` over the same array) and deletes the
entry keyed by that id from every component category. -/
def killEntity (targetId : Nat) (s : State) : State :=
  { s with
    entities := s.entities.eraseP (fun e => e.id == targetId),
    components :=
      { position := delK s.components.position targetId,
        health := delK s.components.health targetId,
        weaponSlots := delK s.components.weaponSlots targetId,
        weapon := delK s.components.weapon targetId,
        enemyType := delK s.components.enemyType targetId,
        targetPartType := delK s.components.targetPartType targetId,
        targeting := delK s.components.targeting targetId } }

/-! ## Weapon target assignment (`WeaponAssignmentSystem`) -/

/-- The already-targeted test from the source:
`Object.values(components.targeting).some(link => link.source === weaponId && link.target === entityId)`. -/
def alreadyTargeted (tg : List (Nat × TargetingC)) (weaponId entityId : Nat) : Bool :=
  tg.any (fun kv => kv.2.source == weaponId && kv.2.target == entityId)

/-- The `validTargetTypes` list computed in `assignWeaponToTarget` from
the owner's entity class. -/
def validTargetTypes (ownerType : String) : List String :=
  if ownerType == EntityType.AGENT then [EntityType.ENEMY, EntityType.TARGET_PART]
  else if ownerType == EntityType.ENEMY then [EntityType.AGENT]
  else []

/-- The primary-phase candidate search from the source:
`entityComponentSystem.entities.find(entity => entity.type === targetType && !alreadyTargeted)`. -/
def primaryCandidate (ents : List Entity) (weaponId : Nat)
    (tg : List (Nat × TargetingC)) (targetType : String) : Option Entity :=
  ents.find? (fun e => e.type == targetType && !alreadyTargeted tg weaponId e.id)

/-- Squared Euclidean distance between two positions.  The source
computes `Math.sqrt(dx^2 + dy^2)` and compares it with `maxRange`;
since every configured max range is positive, `sqrt d2 <= maxRange` is
equivalent to `d2 <= maxRange^2`, which keeps the embedding in `ℚ`. -/
def distSq (a b : Pos) : ℤ :=
  (a.x - b.x) ^ 2 + (a.y - b.y) ^ 2

/-- JS strict equality between a number and a string
(`targetPartType.parentEntityId === targetType` in the source): operands
of different primitive types are never strictly equal. -/
def natStrEq (_ : Nat) (_ : String) : Bool := false

/-- The primary-preference loop of `assignWeaponToTarget`, recursing
over the filtered preference-type list.  Result `some (some c)` embeds
an assignment followed by `return`; `some none` embeds falling through
the whole loop; `none` embeds a thrown `TypeError` (a position or range
lookup on `undefined`). -/
def primaryScan (ents : List Entity) (weaponId : Nat) (ownerId : Nat)
    (weaponType : String) (c : Components) : List String → Option (Option Components)
  | [] => some none
  | targetType :: rest =>
    match primaryCandidate ents weaponId c.targeting targetType with
    | some target =>
      match getK c.position ownerId, getK c.position target.id,
            WeaponRangeConfig weaponType with
      | some sp, some tp, some range =>
        if distSq sp tp ≤ range.2 ^ 2 then
          some (some { c with targeting := (setK c.targeting weaponId
            ⟨weaponId, target.id, getWeaponColor weaponType, true⟩) })
        else primaryScan ents weaponId ownerId weaponType c rest
      | _, _, _ => none
    | none => primaryScan ents weaponId ownerId weaponType c rest

/-- The inner loop of the specific-target phase, over the required part
types of one opponent type.  The `find` predicate is taken verbatim from
the source: it requires `entity.type === TARGET_PART`, a truthy
`entity.components.targetPartType` whose `partType` equals the required
part, whose `parentEntityId` is strictly equal to the opponent-type
string, and that the entity is not already targeted by this weapon. -/
def specificPartScan (ents : List Entity) (weaponId : Nat) (ownerId : Nat)
    (weaponType : String) (targetType : String) (c : Components) :
    List String → Option (Option Components)
  | [] => some none
  | specificTargetType :: rest =>
    match ents.find? (fun e =>
        e.type == EntityType.TARGET_PART &&
        (match e.ownTargetPartType with
         | some t => t.partType == specificTargetType &&
             natStrEq t.parentEntityId targetType
         | none => false) &&
        !alreadyTargeted c.targeting weaponId e.id) with
    | some target =>
      match getK c.position ownerId, getK c.position target.id,
            WeaponRangeConfig weaponType with
      | some sp, some tp, some range =>
        if distSq sp tp ≤ range.2 ^ 2 then
          some (some { c with targeting := (setK c.targeting weaponId
            ⟨weaponId, target.id, getWeaponColor weaponType, true⟩) })
        else specificPartScan ents weaponId ownerId weaponType targetType c rest
      | _, _, _ => none
    | none => specificPartScan ents weaponId ownerId weaponType targetType c rest

/-- The outer loop of the specific-target phase of
`assignWeaponToTarget`, over the `specificTargets` entries in key
order. -/
def specificScan (ents : List Entity) (weaponId : Nat) (ownerId : Nat)
    (weaponType : String) (c : Components) :
    List (String × List String) → Option (Option Components)
  | [] => some none
  | (targetType, parts) :: rest =>
    match specificPartScan ents weaponId ownerId weaponType targetType c parts with
    | none => none
    | some (some c') => some (some c')
    | some none => specificScan ents weaponId ownerId weaponType c rest

/-- `WeaponAssignmentSystem.assignWeaponToTarget`.  `ents` is the global
`entityComponentSystem.entities` array scanned by both candidate
searches.  `none` embeds a thrown `TypeError` (here: a missing weapon
component, whose `.weaponType` read would throw, or a failure inside a
scan). -/
def assignWeaponToTarget (ents : List Entity) (weaponId : Nat)
    (owner : Entity) (c : Components) : Option Components :=
  match getK c.weapon weaponId with
  | none => none
  | some weaponType =>
    match WeaponTargetConfig weaponType with
    | none => some c
    | some tp =>
      let filtered := tp.primary.filter
        (fun ty => (validTargetTypes owner.type).contains ty)
      match primaryScan ents weaponId owner.id weaponType c filtered with
      | none => none
      | some (some c') => some c'
      | some none =>
        match specificScan ents weaponId owner.id weaponType c tp.specificTargets with
        | none => none
        | some (some c') => some c'
        | some none => some c

/-- The slot loop shared by `assignAgentWeapons` and
`assignEnemyWeapons` (their bodies are identical): for each non-`null`
slot entry, in slot order, run `assignWeaponToTarget`. -/
def assignSlots (ents : List Entity) (owner : Entity) :
    List (Option Nat) → Components → Option Components
  | [], c => some c
  | none :: rest, c => assignSlots ents owner rest c
  | some weaponId :: rest, c =>
    match assignWeaponToTarget ents weaponId owner c with
    | none => none
    | some c' => assignSlots ents owner rest c'

/-- `assignAgentWeapons` / `assignEnemyWeapons`: read the owner's
`weaponSlots` component (a missing component would throw) and process
every slot. -/
def assignEntityWeapons (ents : List Entity) (owner : Entity)
    (c : Components) : Option Components :=
  match getK c.weaponSlots owner.id with
  | none => none
  | some slots => assignSlots ents owner slots c

/-- The entity loop of `WeaponAssignmentSystem.update`: agents are
processed when `agentTargetingEnabled`, enemies when
`enemyTargetingEnabled`, all other entities are skipped. -/
def assignLoop (ents : List Entity) (aFlag eFlag : Bool) :
    List Entity → Components → Option Components
  | [], c => some c
  | e :: rest, c =>
    if e.type == EntityType.AGENT && aFlag then
      match assignEntityWeapons ents e c with
      | none => none
      | some c' => assignLoop ents aFlag eFlag rest c'
    else if e.type == EntityType.ENEMY && eFlag then
      match assignEntityWeapons ents e c with
      | none => none
      | some c' => assignLoop ents aFlag eFlag rest c'
    else assignLoop ents aFlag eFlag rest c

/-- `WeaponAssignmentSystem.update`: clear the whole `targeting`
component (`components.targeting = {}`), then process every entity.
`aFlag`/`eFlag` are the global `agentTargetingEnabled` /
`enemyTargetingEnabled` toggles. -/
def waUpdate (aFlag eFlag : Bool) (s : State) : Option State :=
  match assignLoop s.entities aFlag eFlag s.entities
      { s.components with targeting := [] } with
  | none => none
  | some c' => some { s with components := c' }

/-! ## Damage resolution (`DamageSystem`) -/

/-- The melee-range threshold `WeaponRangeConfig["melee"][1]` used by
`calculateHitProbability` (the entry exists, so the lookup never
throws; the `none` arm is unreachable). -/
def meleeThreshold : ℚ :=
  match WeaponRangeConfig "melee" with
  | some range => (range.2 : ℚ)
  | none => 0

/-- `DamageSystem.calculateHitProbability`, as a function of the
already-computed distance (exactly the source signature): guaranteed
hit inside the melee threshold, otherwise accuracy scaled by the
clamped normalized distance. -/
def calculateHitProbability (distance maxRange accuracy : ℚ) : ℚ :=
  if distance ≤ meleeThreshold then 1
  else (1 - max 0 (min 1 (distance / maxRange))) * accuracy

/-- One step of the `DamageSystem.update` loop body, at for-in key
`key`.  The hit roll `Math.random() < calculateHitProbability(distance,
maxRange, accuracy)` is nondeterministic, so it is abstracted as the
oracle `hit key d2 maxRange accuracy` where `d2` is the squared
distance (the claims quantify over every oracle).  Result `none` embeds
a thrown `TypeError`. -/
def damageLinks (hit : Nat → ℤ → ℤ → ℚ → Bool) : List Nat → State → Option State
  | [], s => some s
  | key :: rest, s =>
    match getK s.components.targeting key with
    | none => damageLinks hit rest s
    | some link =>
      if link.enabled then
        match getK s.components.weapon key,
              s.entities.find? (fun e => e.id == link.target) with
        | some weaponType, some target =>
          match WeaponStats weaponType,
                getK s.components.position link.source,
                getK s.components.position target.id,
                WeaponRangeConfig weaponType with
          | some stats, some sp, some tp, some range =>
            if hit key (distSq sp tp) range.2 stats.accuracy then
              match getK s.components.health target.id with
              | some h =>
                let h' := h - stats.damage
                let s1 := { s with components :=
                  { s.components with
                    health := setK s.components.health target.id h' } }
                if h' ≤ 0 then damageLinks hit rest (killEntity target.id s1)
                else damageLinks hit rest s1
              | none => none
            else damageLinks hit rest s
          | _, _, _, _ => none
        | _, _ => damageLinks hit rest s
      else damageLinks hit rest s

/-- `DamageSystem.update`: iterate `for (const weaponId in
components.targeting)`.  JS `for...in` visits the integer-like keys
present at loop entry in ascending order and skips keys deleted before
their visit, which `damageLinks` reproduces by walking the initial key
list and re-reading the current `targeting` object at each key. -/
def damageUpdate (hit : Nat → ℤ → ℤ → ℚ → Bool) (s : State) : Option State :=
  damageLinks hit (s.components.targeting.map Prod.fst) s

/-! ## Entity lifecycle and the spawn API -/

/-- `WeaponSlotsComponent.addWeapon`: place the weapon id in the first
`null` slot; if none is free, leave the slots unchanged and emit
`console.warn` (the returned flag records that the warning fired). -/
def slotsAddWeapon : List (Option Nat) → Nat → List (Option Nat) × Bool
  | [], _ => ([], true)
  | none :: rest, weaponId => (some weaponId :: rest, false)
  | some occupied :: rest, weaponId =>
    let r := slotsAddWeapon rest weaponId
    (some occupied :: r.1, r.2)

/-- `addWeaponToEntity`: allocate a fresh id from the shared counter,
add a `weapon` component and a `position` component offset `(+10, +10)`
from the owner's position, then slot the id into the owner's
`weaponSlots`.  No entity record is pushed.  The returned flag is the
`console.warn` flag of `slotsAddWeapon`; `none` embeds a thrown
`TypeError` (owner position or `weaponSlots` missing). -/
def addWeaponToEntity (s : State) (entityId : Nat) (weaponType : String) :
    Option (State × Bool) :=
  let weaponId := s.nodeId
  match getK s.components.position entityId with
  | none => none
  | some pos =>
    match getK s.components.weaponSlots entityId with
    | none => none
    | some slots =>
      let r := slotsAddWeapon slots weaponId
      some ({ s with
        nodeId := s.nodeId + 1,
        components := { s.components with
          weapon := setK s.components.weapon weaponId weaponType,
          position := setK s.components.position weaponId
            ⟨pos.x + 10, pos.y + 10⟩,
          weaponSlots := setK s.components.weaponSlots entityId r.1 } }, r.2)

/-- `addTargetPartToEntity`: allocate a fresh id from the shared
counter and add `position`, `health` and `targetPartType` components
under it.  No entity record is pushed.  `px`/`py` stand for the two
`Math.random()` draws. -/
def addTargetPartToEntity (s : State) (enemyId : Nat) (partType : String)
    (px py : ℤ) : State :=
  let partId := s.nodeId
  { s with
    nodeId := s.nodeId + 1,
    components := { s.components with
      position := setK s.components.position partId ⟨px, py⟩,
      health := setK s.components.health partId 10,
      targetPartType := setK s.components.targetPartType partId
        ⟨partType, enemyId⟩ } }

/-- The part loop of `api.addEnemy`: one `addTargetPartToEntity` call
per configured part, with its pair of random position draws. -/
def addParts (enemyId : Nat) : List String → List (ℤ × ℤ) → State → State
  | [], _, s => s
  | _ :: _, [], s => s
  | partType :: rest, xy :: xys, s =>
    addParts enemyId rest xys (addTargetPartToEntity s enemyId partType xy.1 xy.2)

/-- `api.addAgent`: a fresh agent entity with position (`ax`, `ay` are
the `Math.random()` draws), health 100, seven weapon slots, a default
rifle and one random weapon (`randomWeaponType`). -/
def addAgent (ax ay : ℤ) (randomWeaponType : String) (s : State) :
    Option State :=
  let (agentId, s1) := addEntity s EntityType.AGENT
  let s2 := { s1 with components := { s1.components with
    position := setK s1.components.position agentId ⟨ax, ay⟩,
    health := setK s1.components.health agentId 100,
    weaponSlots := setK s1.components.weaponSlots agentId
      (List.replicate 7 none) } }
  match addWeaponToEntity s2 agentId "rifle" with
  | none => none
  | some (s3, _) =>
    match addWeaponToEntity s3 agentId randomWeaponType with
    | none => none
    | some (s4, _) => some s4

/-- Whether some slot of the current `weaponSlots` component of
`entityId` is empty: `weaponSlots.weaponIds.some(id => id === null)`. -/
def hasEmptySlot (s : State) (entityId : Nat) : Bool :=
  match getK s.components.weaponSlots entityId with
  | some slots => slots.any (fun slot => slot == none)
  | none => false

/-- One guarded weapon add of `api.addEnemy`: run `addWeaponToEntity`
only when `extra` holds and a slot is empty. -/
def addEnemyWeapon (extra : Bool) (enemyId : Nat) (weaponType : String)
    (s : State) : Option State :=
  if extra && hasEmptySlot s enemyId then
    match addWeaponToEntity s enemyId weaponType with
    | none => none
    | some (s', _) => some s'
  else some s

/-- `api.addEnemy`: a fresh enemy entity of the randomly chosen type
`choice` (`ex`, `ey` are the position draws, `partXY` the per-part
position draws) with type-dependent health, two weapon slots, the fixed
per-type loadout (laser; rocket for devastators; cannon for tanks;
melee if a slot remains) and its configured destructible parts. -/
def addEnemy (choice : String) (ex ey : ℤ) (partXY : List (ℤ × ℤ))
    (s : State) : Option State :=
  match EntityStats choice with
  | none => none
  | some baseHealth =>
    let (enemyId, s1) := addEntity s EntityType.ENEMY
    let s2 := { s1 with components := { s1.components with
      position := setK s1.components.position enemyId ⟨ex, ey⟩,
      health := setK s1.components.health enemyId baseHealth,
      enemyType := setK s1.components.enemyType enemyId choice,
      weaponSlots := setK s1.components.weaponSlots enemyId
        (List.replicate 2 none) } }
    match addEnemyWeapon true enemyId "laser" s2 with
    | none => none
    | some s3 =>
      match addEnemyWeapon (choice == "devastator") enemyId "rocket" s3 with
      | none => none
      | some s4 =>
        match addEnemyWeapon (choice == "tank") enemyId "cannon" s4 with
        | none => none
        | some s5 =>
          match addEnemyWeapon true enemyId "melee" s5 with
          | none => none
          | some s6 =>
            some (addParts enemyId (EnemyPartsConfig choice) partXY s6)

/-- The freshly constructed `EntityComponentSystem`: no entities, no
components, id counter at zero. -/
def initState : State :=
  ⟨[], ⟨[], [], [], [], [], [], []⟩, 0⟩

/-- The states reachable through the program's public surface: the
initial store, the two spawn operations, one weapon-assignment pass,
and one damage-resolution pass. -/
inductive Reachable : State → Prop
  | init : Reachable initState
  | addAgent {s s' : State} (ax ay : ℤ) (wt : String) :
      Reachable s → addAgent ax ay wt s = some s' → Reachable s'
  | addEnemy {s s' : State} (choice : String) (ex ey : ℤ)
      (partXY : List (ℤ × ℤ)) :
      Reachable s → addEnemy choice ex ey partXY s = some s' → Reachable s'
  | assign {s s' : State} (aFlag eFlag : Bool) :
      Reachable s → waUpdate aFlag eFlag s = some s' → Reachable s'
  | damage {s s' : State} (hit : Nat → ℤ → ℤ → ℚ → Bool) :
      Reachable s → damageUpdate hit s = some s' → Reachable s'

/-! ## Invariant predicates -/

/-- Well-formedness of the `targeting` store object: keys strictly
ascending (as a JS object: at most one entry per key) and every entry's
`source` field equal to its key, the way `assignWeaponToTarget` writes
them. -/
def TargetingWF (tg : List (Nat × TargetingC)) : Prop :=
  tg.Pairwise (fun a b => a.1 < b.1) ∧ ∀ kv ∈ tg, kv.2.source = kv.1

/-- The primary scan passes over preference type `t` without assigning:
either no candidate entity of that type exists, or the first candidate
not already targeted by this weapon is out of the weapon's maximum
range (positions and range present, so no throw). -/
def primarySkipped (ents : List Entity) (weaponId ownerId : Nat)
    (weaponType : String) (c : Components) (t : String) : Prop :=
  match primaryCandidate ents weaponId c.targeting t with
  | none => True
  | some cand => ∃ sp tp range, getK c.position ownerId = some sp ∧
      getK c.position cand.id = some tp ∧
      WeaponRangeConfig weaponType = some range ∧
      ¬ distSq sp tp ≤ range.2 ^ 2

/-- Every entity holding a `health` component has strictly positive
health. -/
def healthValuesPositive (s : State) : Bool :=
  s.entities.all (fun e =>
    match getK s.components.health e.id with
    | some hp => decide (0 < hp)
    | none => true)

/-- All seven component categories lack an entry for `id`. -/
def componentsAbsent (c : Components) (id : Nat) : Bool :=
  (getK c.position id).isNone && (getK c.health id).isNone &&
  (getK c.weaponSlots id).isNone && (getK c.weapon id).isNone &&
  (getK c.enemyType id).isNone && (getK c.targetPartType id).isNone &&
  (getK c.targeting id).isNone

/-- Every entity of the earlier state `s0` is, in the later state `s`,
either still registered (some entity carries its id) or completely
purged from every component category. -/
def deadIdsPurged (s0 s : State) : Bool :=
  s0.entities.all (fun e =>
    s.entities.any (fun e' => e'.id == e.id) ||
    componentsAbsent s.components e.id)

/-- Every stored `weaponSlots` value still has the capacity fixed at
creation: 7 slots (agents) or 2 slots (enemies). -/
def SlotsCapOK (s : State) : Prop :=
  ∀ eid slots, getK s.components.weaponSlots eid = some slots →
    slots.length = 7 ∨ slots.length = 2

/-! ## Concrete demonstration stores used by witnesses -/

/-- A small store: agent 0 carrying rifle 1 and melee 2, infantry
enemy 3 one pixel away, and a stale `Targeting` entry `9` left over
from a "previous tick". -/
def demoA : State :=
  ⟨[⟨0, "agent", none⟩, ⟨3, "enemy", none⟩],
   ⟨[(0, ⟨0, 0⟩), (1, ⟨10, 10⟩), (2, ⟨10, 10⟩), (3, ⟨0, 1⟩)],
    [(0, 100), (3, 50)],
    [(0, [some 1, some 2, none, none, none, none, none]), (3, [none, none])],
    [(1, "rifle"), (2, "melee")],
    [(3, "infantry")],
    [],
    [(9, ⟨9, 9, "red", true⟩)]⟩,
   4⟩

/-- `demoA` after one assignment pass: the rifle's filtered preference
list is empty, the melee weapon targets enemy 3, the stale entry is
gone. -/
def demoB : State :=
  { demoA with components := { demoA.components with
      targeting := [(2, ⟨2, 3, "gray", true⟩)] } }

/-- A store ready for damage resolution: melee weapon 2 (owned by
agent 0, both at the origin) targets infantry enemy 3 whose health is
exactly the melee damage 20. -/
def demoD : State :=
  ⟨[⟨0, "agent", none⟩, ⟨3, "enemy", none⟩],
   ⟨[(0, ⟨0, 0⟩), (1, ⟨10, 10⟩), (2, ⟨0, 0⟩), (3, ⟨0, 1⟩)],
    [(0, 100), (3, 20)],
    [(0, [some 1, some 2, none, none, none, none, none]), (3, [none, none])],
    [(1, "rifle"), (2, "melee")],
    [(3, "infantry")],
    [],
    [(2, ⟨2, 3, "gray", true⟩)]⟩,
   4⟩

/-- A store whose entity 0 has completely full weapon slots. -/
def fullSlotsStore : State :=
  ⟨[⟨0, "enemy", none⟩],
   ⟨[(0, ⟨0, 0⟩), (1, ⟨10, 10⟩), (2, ⟨10, 10⟩)],
    [(0, 50)],
    [(0, [some 1, some 2])],
    [(1, "laser"), (2, "melee")],
    [(0, "infantry")],
    [],
    []⟩,
   3⟩

/-- `c2Store`: an agent (id 0, rifle weapon id 1) facing a tank enemy
(id 2) whose "heat sink" target part (id 3) sits 5 pixels away, well
inside the rifle's 60-pixel range — the exact situation in which the
claim says a `Targeting` entry is recorded. -/
def c2Store : State :=
  ⟨[⟨0, "agent", none⟩, ⟨2, "enemy", none⟩],
   ⟨[(0, ⟨0, 0⟩), (1, ⟨10, 10⟩), (2, ⟨0, 30⟩), (3, ⟨0, 5⟩)],
    [(0, 100), (2, 200), (3, 10)],
    [(0, [some 1, none, none, none, none, none, none]), (2, [none, none])],
    [(1, "rifle")],
    [(2, "tank")],
    [(3, ⟨"heat sink", 2⟩)],
    []⟩,
   4⟩

/-- Scenario E components: melee weapon 2 (agent 0) already targets
infantry enemy 3, and no other candidate exists. -/
def scenEStore : Components :=
  ⟨[(0, ⟨0, 0⟩), (2, ⟨10, 10⟩), (3, ⟨0, 1⟩)],
   [(0, 100), (3, 50)],
   [(0, [some 2, none, none, none, none, none, none]), (3, [none, none])],
   [(2, "melee")],
   [(3, "infantry")],
   [],
   [(2, ⟨2, 3, "gray", true⟩)]⟩

/-- A store with a dangling `Targeting` entry: weapon 5 has no weapon
component, yet its link to enemy 3 survived in the targeting object. -/
def danglingStore : State :=
  ⟨[⟨3, "enemy", none⟩],
   ⟨[(3, ⟨0, 1⟩)],
    [(3, 50)],
    [(3, [none, none])],
    [],
    [(3, "infantry")],
    [],
    [(5, ⟨5, 3, "red", true⟩)]⟩,
   6⟩

/-- `demoD` after its one-link damage pass with an always-hit roll:
enemy 3 reaches health 0 and is removed with all its components. -/
def demoDAfter : State :=
  ⟨[⟨0, "agent", none⟩],
   ⟨[(0, ⟨0, 0⟩), (1, ⟨10, 10⟩), (2, ⟨0, 0⟩)],
    [(0, 100)],
    [(0, [some 1, some 2, none, none, none, none, none])],
    [(1, "rifle"), (2, "melee")],
    [],
    [],
    [(2, ⟨2, 3, "gray", true⟩)]⟩,
   4⟩

/-- The result of `api.addAgent` on the fresh store with position draws
(5, 6) and random weapon "melee". -/
def spawnedAgent : State :=
  ⟨[⟨0, "agent", none⟩],
   ⟨[(0, ⟨5, 6⟩), (1, ⟨15, 16⟩), (2, ⟨15, 16⟩)],
    [(0, 100)],
    [(0, [some 1, some 2, none, none, none, none, none])],
    [(1, "rifle"), (2, "melee")],
    [],
    [],
    []⟩,
   3⟩

/-! ## Association-map lemmas -/

theorem getK_setK_self {α : Type} (m : List (Nat × α)) (k : Nat) (v : α) :
    getK (setK m k v) k = some v := by
  induction m with
  | nil => simp [setK, getK]
  | cons hd tl ih =>
    obtain ⟨k', v'⟩ := hd
    by_cases h1 : k < k'
    · simp [setK, getK, h1]
    · by_cases h2 : k = k'
      · simp [setK, getK, h1, h2]
      · simp [setK, getK, h1, h2, ih]

theorem getK_setK_ne {α : Type} (m : List (Nat × α)) (k j : Nat) (v : α)
    (hne : j ≠ k) : getK (setK m k v) j = getK m j := by
  induction m with
  | nil => simp [setK, getK, hne]
  | cons hd tl ih =>
    obtain ⟨k', v'⟩ := hd
    by_cases h1 : k < k'
    · simp [setK, getK, h1, hne]
    · by_cases h2 : k = k'
      · subst h2
        simp [setK, getK, h1, hne]
      · simp only [setK, if_neg h1, if_neg h2]
        by_cases h3 : j = k'
        · simp [getK, h3]
        · simp [getK, h3, ih]

theorem getK_delK_self {α : Type} (m : List (Nat × α)) (k : Nat) :
    getK (delK m k) k = none := by
  induction m with
  | nil => simp [delK, getK]
  | cons hd tl ih =>
    obtain ⟨k', v'⟩ := hd
    by_cases h : k' = k
    · simp [delK, h, ih]
    · simp only [delK, if_neg h, getK, if_neg (fun hh : k = k' => h hh.symm)]
      exact ih

theorem getK_delK_ne {α : Type} (m : List (Nat × α)) (k j : Nat)
    (hne : j ≠ k) : getK (delK m k) j = getK m j := by
  induction m with
  | nil => simp [delK, getK]
  | cons hd tl ih =>
    obtain ⟨k', v'⟩ := hd
    by_cases h : k' = k
    · subst h
      simp [delK, getK, hne, ih]
    · by_cases h3 : j = k'
      · simp [delK, getK, h, h3]
      · simp [delK, getK, h, h3, ih]


/-! ## Auxiliary lemmas -/

theorem getK_mem {α : Type} {m : List (Nat × α)} {k : Nat} {v : α}
    (h : getK m k = some v) : (k, v) ∈ m := by
  induction m with
  | nil => simp [getK] at h
  | cons hd tl ih =>
    obtain ⟨k', v'⟩ := hd
    by_cases hk : k = k'
    · subst hk
      simp [getK] at h
      simp [h]
    · simp [getK, hk] at h
      simp [ih h]

theorem mem_setK {α : Type} {m : List (Nat × α)} {k : Nat} {v : α} {x : Nat × α}
    (h : x ∈ setK m k v) : x ∈ m ∨ x = (k, v) := by
  induction m with
  | nil =>
    simp [setK] at h
    exact Or.inr h
  | cons hd tl ih =>
    obtain ⟨k', v'⟩ := hd
    by_cases h1 : k < k'
    · simp only [setK] at h
      rw [if_pos h1] at h
      rcases List.mem_cons.mp h with h | h
      · exact Or.inr h
      · exact Or.inl h
    · by_cases h2 : k = k'
      · simp only [setK] at h
        rw [if_neg h1, if_pos h2] at h
        rcases List.mem_cons.mp h with h | h
        · exact Or.inr h
        · exact Or.inl (List.mem_cons_of_mem _ h)
      · simp only [setK] at h
        rw [if_neg h1, if_neg h2] at h
        rcases List.mem_cons.mp h with h | h
        · exact Or.inl (h ▸ List.mem_cons_self _ _)
        · rcases ih h with h' | h'
          · exact Or.inl (List.mem_cons_of_mem _ h')
          · exact Or.inr h'

theorem pairwiseKeys_setK {α : Type} {m : List (Nat × α)} (k : Nat) (v : α)
    (hp : m.Pairwise (fun a b => a.1 < b.1)) :
    (setK m k v).Pairwise (fun a b => a.1 < b.1) := by
  induction m with
  | nil => simp [setK]
  | cons hd tl ih =>
    obtain ⟨k', v'⟩ := hd
    rw [List.pairwise_cons] at hp
    obtain ⟨hbound, htl⟩ := hp
    by_cases h1 : k < k'
    · simp only [setK]
      rw [if_pos h1]
      refine List.pairwise_cons.mpr ⟨?_, List.pairwise_cons.mpr ⟨hbound, htl⟩⟩
      intro b hb
      rcases List.mem_cons.mp hb with hb | hb
      · rw [hb]
        exact h1
      · exact lt_trans h1 (hbound b hb)
    · by_cases h2 : k = k'
      · simp only [setK]
        rw [if_neg h1, if_pos h2]
        refine List.pairwise_cons.mpr ⟨?_, htl⟩
        intro b hb
        rw [h2]
        exact hbound b hb
      · simp only [setK]
        rw [if_neg h1, if_neg h2]
        refine List.pairwise_cons.mpr ⟨?_, ih htl⟩
        intro b hb
        rcases mem_setK hb with hb' | hb'
        · exact hbound b hb'
        · rw [hb']
          exact lt_of_le_of_ne (le_of_not_lt h1) (fun hh => h2 hh.symm)

theorem countP_le_one_of_keys {α : Type} {m : List (Nat × α)} (w : Nat)
    (hp : m.Pairwise (fun a b => a.1 < b.1)) (p : Nat × α → Bool)
    (hkey : ∀ kv ∈ m, p kv = true → kv.1 = w) : m.countP p ≤ 1 := by
  induction m with
  | nil => simp [List.countP_nil]
  | cons hd tl ih =>
    rw [List.pairwise_cons] at hp
    obtain ⟨hbound, htl⟩ := hp
    by_cases hphd : p hd = true
    · have hdw : hd.1 = w := hkey hd (by simp) hphd
      have hzero : tl.countP p = 0 := by
        rw [List.countP_eq_zero]
        intro kv hkv hpkv
        have h1 := hkey kv (by simp [hkv]) hpkv
        have h2 := hbound kv hkv
        omega
      simp [List.countP_cons, hphd, hzero]
    · have := ih htl (fun kv hkv => hkey kv (by simp [hkv]))
      simp only [List.countP_cons, hphd]
      simpa using this

theorem specificScan_always_none (ents : List Entity) (weaponId ownerId : Nat)
    (weaponType : String) (c : Components) (l : List (String × List String)) :
    specificScan ents weaponId ownerId weaponType c l = some none := by
  induction l with
  | nil => rfl
  | cons hd tl ih =>
    obtain ⟨targetType, parts⟩ := hd
    have hparts : specificPartScan ents weaponId ownerId weaponType
        targetType c parts = some none := by
      induction parts with
      | nil => rfl
      | cons p ps ihp =>
        have hfind : (ents.find? (fun e =>
            e.type == EntityType.TARGET_PART &&
            (match e.ownTargetPartType with
             | some t => t.partType == p && natStrEq t.parentEntityId targetType
             | none => false) &&
            !alreadyTargeted c.targeting weaponId e.id)) = none := by
          apply List.find?_eq_none.mpr
          intro e _
          cases h : e.ownTargetPartType <;> simp [natStrEq, h]
        simp only [specificPartScan, hfind]
        exact ihp
    simp only [specificScan, hparts]
    exact ih

/-! ## Claim C5: hit probability -/

/-- Claim C5: for accuracy in [0,1], positive maximum range and
nonnegative distance, the computed hit probability lies in [0,1]; it is
exactly 1 whenever the distance is at most the fixed melee threshold
(which is 1), regardless of the weapon's own range and accuracy, and
otherwise equals `(1 - clamp01(distance / maxRange)) * accuracy`. -/
theorem c5_hit_probability (distance maxRange accuracy : ℚ)
    (hacc0 : 0 ≤ accuracy) (hacc1 : accuracy ≤ 1) (hmr : 0 < maxRange)
    (hd : 0 ≤ distance) :
    0 ≤ calculateHitProbability distance maxRange accuracy ∧
    calculateHitProbability distance maxRange accuracy ≤ 1 ∧
    meleeThreshold = 1 ∧
    (distance ≤ meleeThreshold →
      calculateHitProbability distance maxRange accuracy = 1) ∧
    (meleeThreshold < distance →
      calculateHitProbability distance maxRange accuracy
        = (1 - max 0 (min 1 (distance / maxRange))) * accuracy) := by
  unfold calculateHitProbability
  by_cases hc : distance ≤ meleeThreshold
  · refine ⟨by simp [hc], by simp [hc], by decide, fun _ => by simp [hc], ?_⟩
    intro hlt
    exact absurd hc (not_le.mpr hlt)
  · have h0 : (0 : ℚ) ≤ max 0 (min 1 (distance / maxRange)) := le_max_left _ _
    have h1 : max 0 (min 1 (distance / maxRange)) ≤ 1 :=
      max_le (by norm_num) (min_le_left _ _)
    refine ⟨?_, ?_, by decide, fun hle => absurd hle hc, fun _ => by simp [hc]⟩
    · simp only [if_neg hc]
      exact mul_nonneg (by linarith) hacc0
    · simp only [if_neg hc]
      nlinarith

/-- Witness for C5 at a rifle-like weapon: accuracy 4/5, max range 60,
distance 30 (non-melee branch) — and the hypotheses hold there. -/
theorem c5_hit_probability_witness :
    0 ≤ calculateHitProbability 30 60 (4/5) ∧
    calculateHitProbability 30 60 (4/5) ≤ 1 ∧
    meleeThreshold = 1 ∧
    ((30 : ℚ) ≤ meleeThreshold → calculateHitProbability 30 60 (4/5) = 1) ∧
    (meleeThreshold < (30 : ℚ) →
      calculateHitProbability 30 60 (4/5)
        = (1 - max 0 (min 1 ((30 : ℚ) / 60))) * (4/5)) :=
  c5_hit_probability 30 60 (4/5) (by norm_num) (by norm_num) (by norm_num)
    (by norm_num)

/-! ## Claim C3: targeting is cleared and rebuilt from scratch -/

/-- Claim C3: a weapon-assignment invocation first clears the whole
`Targeting` component and rebuilds it from the rest of the store, so
its result does not depend on whatever `Targeting` entries a previous
tick left behind: replacing the incoming `targeting` map by anything
(in particular by stale links) does not change the outcome. -/
theorem c3_targeting_rebuilt (aFlag eFlag : Bool) (s : State)
    (stale : List (Nat × TargetingC)) :
    waUpdate aFlag eFlag
        { s with components := { s.components with targeting := stale } }
      = waUpdate aFlag eFlag s := rfl

/-! ## Claim C2: the specific-target fallback -/

/-- Claim C2 (refuting evaluation): the specific-target phase of
`assignWeaponToTarget` can never record an entry — its `find` predicate
compares the numeric `parentEntityId` against the opponent-type string
with `===` and reads the never-populated per-entity
`components.targetPartType`, so it is identically false — and on the
concrete store `c2Store` (matching part, matching parent type, in
range) a full assignment pass records no `Targeting` entry at all. -/
theorem c2_specific_target_dead :
    (∀ ents weaponId ownerId weaponType c l,
      specificScan ents weaponId ownerId weaponType c l = some none) ∧
    waUpdate true true c2Store = some c2Store :=
  ⟨specificScan_always_none, by decide⟩

/-! ## Claim C7: damage links with a missing weapon or target -/

/-- Claim C7: a `Targeting` link whose source weapon component or
target entity no longer exists is skipped by damage resolution without
any state change, and the pass continues with the remaining links. -/
theorem c7_missing_skipped (hit : Nat → ℤ → ℤ → ℚ → Bool) (s : State)
    (key : Nat) (link : TargetingC) (rest : List Nat)
    (hlink : getK s.components.targeting key = some link)
    (hmiss : getK s.components.weapon key = none ∨
      s.entities.find? (fun e => e.id == link.target) = none) :
    damageLinks hit (key :: rest) s = damageLinks hit rest s ∧
    damageLinks hit [key] s = some s := by
  have hstep : ∀ tail, damageLinks hit (key :: tail) s = damageLinks hit tail s := by
    intro tail
    simp only [damageLinks, hlink]
    by_cases hen : link.enabled
    · rcases hmiss with hw | ht
      · simp [hen, hw]
      · cases hw : getK s.components.weapon key <;> simp [hen, hw, ht]
    · simp [hen]
  exact ⟨hstep rest, hstep []⟩

/-- Witness for C7: on `danglingStore` the surviving `Targeting` entry
of weapon 5 has no weapon component; its link is skipped and the state
is returned unchanged. -/
theorem c7_missing_skipped_witness :
    damageLinks (fun _ _ _ _ => true) [5] danglingStore
      = damageLinks (fun _ _ _ _ => true) [] danglingStore ∧
    damageLinks (fun _ _ _ _ => true) [5] danglingStore = some danglingStore :=
  c7_missing_skipped (fun _ _ _ _ => true) danglingStore 5 ⟨5, 3, "red", true⟩
    [] (by decide) (Or.inl (by decide))

/-! ## The assignment pass only writes the `targeting` component -/

theorem primaryScan_shape (ents : List Entity) (weaponId ownerId : Nat)
    (weaponType : String) :
    ∀ (l : List String) (c c' : Components),
      primaryScan ents weaponId ownerId weaponType c l = some (some c') →
      ∃ tg, c' = { c with targeting := tg } := by
  intro l
  induction l with
  | nil =>
    intro c c' h
    simp [primaryScan] at h
  | cons t rest ih =>
    intro c c' h
    simp only [primaryScan] at h
    split at h
    · split at h
      · split at h
        · simp only [Option.some.injEq] at h
          exact ⟨_, h.symm⟩
        · exact ih c c' h
      · exact absurd h (by simp)
    · exact ih c c' h

theorem assignWeaponToTarget_shape {ents : List Entity} {weaponId : Nat}
    {owner : Entity} {c c' : Components}
    (h : assignWeaponToTarget ents weaponId owner c = some c') :
    ∃ tg, c' = { c with targeting := tg } := by
  simp only [assignWeaponToTarget] at h
  split at h
  · exact absurd h (by simp)
  · split at h
    · simp only [Option.some.injEq] at h
      exact ⟨c.targeting, h.symm⟩
    · split at h
      · exact absurd h (by simp)
      · rename_i c'' hps
        simp only [Option.some.injEq] at h
        obtain ⟨tg, htg⟩ := primaryScan_shape ents weaponId owner.id _ _ c c'' hps
        exact ⟨tg, h ▸ htg⟩
      · rw [specificScan_always_none] at h
        simp only [Option.some.injEq] at h
        exact ⟨c.targeting, h.symm⟩

theorem assignSlots_shape {ents : List Entity} {owner : Entity} :
    ∀ (slots : List (Option Nat)) (c c' : Components),
      assignSlots ents owner slots c = some c' →
      ∃ tg, c' = { c with targeting := tg } := by
  intro slots
  induction slots with
  | nil =>
    intro c c' h
    simp only [assignSlots, Option.some.injEq] at h
    exact ⟨c.targeting, h.symm⟩
  | cons slot rest ih =>
    intro c c' h
    cases slot with
    | none => exact ih c c' h
    | some weaponId =>
      simp only [assignSlots] at h
      cases hw : assignWeaponToTarget ents weaponId owner c with
      | none =>
        rw [hw] at h
        simp at h
      | some c1 =>
        rw [hw] at h
        obtain ⟨tg1, rfl⟩ := assignWeaponToTarget_shape hw
        obtain ⟨tg2, htg2⟩ := ih _ c' h
        exact ⟨tg2, htg2⟩

theorem assignEntityWeapons_shape {ents : List Entity} {owner : Entity}
    {c c' : Components} (h : assignEntityWeapons ents owner c = some c') :
    ∃ tg, c' = { c with targeting := tg } := by
  simp only [assignEntityWeapons] at h
  cases hs : getK c.weaponSlots owner.id with
  | none =>
    rw [hs] at h
    simp at h
  | some slots =>
    rw [hs] at h
    exact assignSlots_shape slots c c' h

theorem assignLoop_shape {ents : List Entity} {aFlag eFlag : Bool} :
    ∀ (l : List Entity) (c c' : Components),
      assignLoop ents aFlag eFlag l c = some c' →
      ∃ tg, c' = { c with targeting := tg } := by
  intro l
  induction l with
  | nil =>
    intro c c' h
    simp only [assignLoop, Option.some.injEq] at h
    exact ⟨c.targeting, h.symm⟩
  | cons e rest ih =>
    intro c c' h
    simp only [assignLoop] at h
    by_cases h1 : (e.type == EntityType.AGENT && aFlag) = true
    · rw [if_pos h1] at h
      cases hw : assignEntityWeapons ents e c with
      | none =>
        rw [hw] at h
        simp at h
      | some c1 =>
        rw [hw] at h
        obtain ⟨tg1, rfl⟩ := assignEntityWeapons_shape hw
        obtain ⟨tg2, htg2⟩ := ih _ c' h
        exact ⟨tg2, htg2⟩
    · rw [if_neg h1] at h
      by_cases h2 : (e.type == EntityType.ENEMY && eFlag) = true
      · rw [if_pos h2] at h
        cases hw : assignEntityWeapons ents e c with
        | none =>
          rw [hw] at h
          simp at h
        | some c1 =>
          rw [hw] at h
          obtain ⟨tg1, rfl⟩ := assignEntityWeapons_shape hw
          obtain ⟨tg2, htg2⟩ := ih _ c' h
          exact ⟨tg2, htg2⟩
      · rw [if_neg h2] at h
        exact ih c c' h

theorem waUpdate_shape {aFlag eFlag : Bool} {s s' : State}
    (h : waUpdate aFlag eFlag s = some s') :
    ∃ tg, s' = { s with components := { s.components with targeting := tg } } := by
  simp only [waUpdate] at h
  cases hA : assignLoop s.entities aFlag eFlag s.entities
      { s.components with targeting := [] } with
  | none =>
    rw [hA] at h
    simp at h
  | some c' =>
    rw [hA] at h
    simp only [Option.some.injEq] at h
    obtain ⟨tg, htg⟩ := assignLoop_shape _ _ _ hA
    exact ⟨tg, by rw [← h, htg]⟩

/-! ## Claim C9: assignment is idempotent -/

/-- Claim C9: running the weapon-assignment pass twice in a row on the
same store state, with the same targeting flags and no state change in
between, reproduces the same state — in particular the same `Targeting`
mapping after each run. -/
theorem c9_assignment_idempotent (aFlag eFlag : Bool) (s s' : State)
    (h : waUpdate aFlag eFlag s = some s') :
    waUpdate aFlag eFlag s' = some s' := by
  obtain ⟨tg, rfl⟩ := waUpdate_shape h
  simp only [waUpdate] at h ⊢
  cases hA : assignLoop s.entities aFlag eFlag s.entities
      { s.components with targeting := [] } with
  | none =>
    rw [hA] at h
    simp at h
  | some c' =>
    rw [hA] at h
    simp only [Option.some.injEq, State.mk.injEq] at h
    exact congrArg some (by simp [h])

/-- Witness for C9: on the two-entity demo store the pass succeeds
(also discarding a stale entry), and applying the theorem shows the
second run reproduces its result. -/
theorem c9_assignment_idempotent_witness :
    waUpdate true true demoA = some demoB ∧
    waUpdate true true demoB = some demoB :=
  ⟨by decide, c9_assignment_idempotent true true demoA demoB (by decide)⟩

/-! ## Damage-pass preservation facts -/

/-- Facts preserved along the damage loop: entities only disappear,
`weaponSlots` entries only disappear, positive-health entities stay
positive (a killing blow removes its victim at once), and entities of
any earlier state are either still registered or fully purged. -/
theorem damageLinks_main (hit : Nat → ℤ → ℤ → ℚ → Bool) :
    ∀ (ks : List Nat) (s s' : State), damageLinks hit ks s = some s' →
      (∀ e ∈ s'.entities, e ∈ s.entities) ∧
      (∀ k v, getK s'.components.weaponSlots k = some v →
        getK s.components.weaponSlots k = some v) ∧
      ((∀ e ∈ s.entities, ∀ hp, getK s.components.health e.id = some hp → 0 < hp) →
        ∀ e ∈ s'.entities, ∀ hp, getK s'.components.health e.id = some hp → 0 < hp) ∧
      (∀ s0 : State,
        (∀ e ∈ s0.entities, (∃ e' ∈ s.entities, e'.id = e.id) ∨
          componentsAbsent s.components e.id = true) →
        ∀ e ∈ s0.entities, (∃ e' ∈ s'.entities, e'.id = e.id) ∨
          componentsAbsent s'.components e.id = true) := by
  intro ks
  induction ks with
  | nil =>
    intro s s' h
    simp only [damageLinks, Option.some.injEq] at h
    subst h
    exact ⟨fun e he => he, fun k v hv => hv, fun hp => hp, fun s0 hP => hP⟩
  | cons key rest ih =>
    intro s s' h
    simp only [damageLinks] at h
    split at h
    · exact ih s s' h
    · rename_i link hlink
      split at h
      · split at h
        · rename_i weaponType target hwt hfind
          split at h
          · rename_i stats sp tp range hstats hsp htp hrange
            split at h
            · split at h
              · rename_i h0 hh0
                have htmem : target ∈ s.entities := List.mem_of_find?_eq_some hfind
                split at h
                · -- killing blow: recurse on killEntity target.id s1
                  rename_i hle
                  have H := ih _ s' h
                  simp only [killEntity] at H
                  refine ⟨?_, ?_, ?_, ?_⟩
                  · intro e he
                    have := H.1 e he
                    exact List.mem_of_mem_eraseP this
                  · intro k v hv
                    have := H.2.1 k v hv
                    by_cases hk : k = target.id
                    · rw [hk, getK_delK_self] at this
                      exact absurd this (by simp)
                    · rwa [getK_delK_ne _ _ _ hk] at this
                  · intro hpos
                    refine H.2.2.1 ?_
                    intro e he hp hhp
                    have he' : e ∈ s.entities := List.mem_of_mem_eraseP he
                    by_cases hk : e.id = target.id
                    · rw [hk, getK_delK_self] at hhp
                      exact absurd hhp (by simp)
                    · rw [getK_delK_ne _ _ _ hk, getK_setK_ne _ _ _ _ hk] at hhp
                      exact hpos e he' hp hhp
                  · intro s0 hP
                    refine H.2.2.2 s0 ?_
                    intro e he0
                    by_cases hk : e.id = target.id
                    · right
                      simp only [componentsAbsent, hk,
                        getK_delK_self, Option.isNone_none, Bool.and_self]
                    · rcases hP e he0 with ⟨e', he', heid⟩ | habs
                      · left
                        refine ⟨e', ?_, heid⟩
                        have hne : ¬((e'.id == target.id) = true) := by
                          simp only [beq_iff_eq, heid]
                          exact hk
                        exact (@List.mem_eraseP_of_neg Entity
                          (fun x => x.id == target.id) e' s.entities hne).mpr he'
                      · right
                        simp only [componentsAbsent, Bool.and_eq_true,
                          Option.isNone_iff_eq_none] at habs ⊢
                        obtain ⟨⟨⟨⟨⟨⟨hc1, hc2⟩, hc3⟩, hc4⟩, hc5⟩, hc6⟩, hc7⟩ := habs
                        rw [getK_delK_ne _ _ _ hk, getK_delK_ne _ _ _ hk,
                          getK_delK_ne _ _ _ hk, getK_delK_ne _ _ _ hk,
                          getK_delK_ne _ _ _ hk, getK_delK_ne _ _ _ hk,
                          getK_delK_ne _ _ _ hk, getK_setK_ne _ _ _ _ hk]
                        exact ⟨⟨⟨⟨⟨⟨hc1, hc2⟩, hc3⟩, hc4⟩, hc5⟩, hc6⟩, hc7⟩
                · -- survivable hit: recurse on s1
                  rename_i hgt
                  have H := ih _ s' h
                  refine ⟨H.1, H.2.1, ?_, ?_⟩
                  · intro hpos
                    refine H.2.2.1 ?_
                    intro e he hp hhp
                    by_cases hk : e.id = target.id
                    · rw [hk, getK_setK_self] at hhp
                      cases hhp
                      omega
                    · rw [getK_setK_ne _ _ _ _ hk] at hhp
                      exact hpos e he hp hhp
                  · intro s0 hP
                    refine H.2.2.2 s0 ?_
                    intro e he0
                    by_cases hk : e.id = target.id
                    · exact Or.inl ⟨target, htmem, hk.symm⟩
                    · rcases hP e he0 with ⟨e', he', heid⟩ | habs
                      · exact Or.inl ⟨e', he', heid⟩
                      · right
                        simp only [componentsAbsent, Bool.and_eq_true,
                          Option.isNone_iff_eq_none] at habs ⊢
                        obtain ⟨⟨⟨⟨⟨⟨hc1, hc2⟩, hc3⟩, hc4⟩, hc5⟩, hc6⟩, hc7⟩ := habs
                        rw [getK_setK_ne _ _ _ _ hk]
                        exact ⟨⟨⟨⟨⟨⟨hc1, hc2⟩, hc3⟩, hc4⟩, hc5⟩, hc6⟩, hc7⟩
              · exact absurd h (by simp)
            · exact ih s s' h
          · exact absurd h (by simp)
        · exact ih s s' h
      · exact ih s s' h

theorem healthValuesPositive_iff (s : State) :
    healthValuesPositive s = true ↔
    ∀ e ∈ s.entities, ∀ hp, getK s.components.health e.id = some hp → 0 < hp := by
  simp only [healthValuesPositive, List.all_eq_true]
  constructor
  · intro h e he hp hhp
    have := h e he
    rw [hhp] at this
    simpa using this
  · intro h e he
    cases hgk : getK s.components.health e.id with
    | none => simp
    | some hp => simpa using h e he hp hgk

theorem deadIdsPurged_iff (s0 s : State) :
    deadIdsPurged s0 s = true ↔
    ∀ e ∈ s0.entities, (∃ e' ∈ s.entities, e'.id = e.id) ∨
      componentsAbsent s.components e.id = true := by
  simp only [deadIdsPurged, List.all_eq_true, Bool.or_eq_true, List.any_eq_true,
    beq_iff_eq]

/-! ## Claim C4 -/

/-- Claim C4: starting from a store in which every entity's health is
positive, after any number `n` of damage links have been processed (so
in particular both between two links and after the whole pass), no
registered entity has health ≤ 0 — a killing blow removes its victim
immediately — and every entity id that has disappeared from the
registry has been purged from every component category. -/
theorem c4_dead_removed_immediately (hit : Nat → ℤ → ℤ → ℚ → Bool)
    (s : State) (n : Nat) (s' : State)
    (hpos : healthValuesPositive s = true)
    (hrun : damageLinks hit ((s.components.targeting.map Prod.fst).take n) s
      = some s') :
    healthValuesPositive s' = true ∧ deadIdsPurged s s' = true := by
  have H := damageLinks_main hit _ s s' hrun
  constructor
  · rw [healthValuesPositive_iff] at hpos ⊢
    exact H.2.2.1 hpos
  · rw [deadIdsPurged_iff]
    refine H.2.2.2 s ?_
    intro e he
    exact Or.inl ⟨e, he, rfl⟩

/-- Witness for C4: on `demoD` (healthy store, melee link, always-hit
roll) processing one link kills enemy 3; the after-state is healthy and
enemy 3 is fully purged. -/
theorem c4_dead_removed_immediately_witness :
    healthValuesPositive demoDAfter = true ∧
    deadIdsPurged demoD demoDAfter = true :=
  c4_dead_removed_immediately (fun _ _ _ _ => true) demoD 1 demoDAfter
    (by decide) (by decide)

/-! ## Claim C6 -/

theorem TargetingWF_setK {tg : List (Nat × TargetingC)} (h : TargetingWF tg)
    (weaponId targetId : Nat) (col : String) :
    TargetingWF (setK tg weaponId ⟨weaponId, targetId, col, true⟩) := by
  refine ⟨pairwiseKeys_setK _ _ h.1, ?_⟩
  intro kv hkv
  rcases mem_setK hkv with hm | hm
  · exact h.2 kv hm
  · simp [hm]

theorem targetingWF_countP {tg : List (Nat × TargetingC)} (h : TargetingWF tg)
    (w : Nat) :
    tg.countP (fun kv => kv.2.source == w && kv.2.enabled) ≤ 1 := by
  refine countP_le_one_of_keys w h.1 _ ?_
  intro kv hkv hp
  simp only [Bool.and_eq_true, beq_iff_eq] at hp
  rw [← h.2 kv hkv]
  exact hp.1

theorem primaryScan_WF (ents : List Entity) (weaponId ownerId : Nat)
    (weaponType : String) :
    ∀ (l : List String) (c c' : Components), TargetingWF c.targeting →
      primaryScan ents weaponId ownerId weaponType c l = some (some c') →
      TargetingWF c'.targeting := by
  intro l
  induction l with
  | nil =>
    intro c c' _ h
    simp [primaryScan] at h
  | cons t rest ih =>
    intro c c' hwf h
    simp only [primaryScan] at h
    split at h
    · split at h
      · split at h
        · simp only [Option.some.injEq] at h
          rw [← h]
          exact TargetingWF_setK hwf _ _ _
        · exact ih c c' hwf h
      · exact absurd h (by simp)
    · exact ih c c' hwf h

theorem assignWeaponToTarget_WF {ents : List Entity} {weaponId : Nat}
    {owner : Entity} {c c' : Components} (hwf : TargetingWF c.targeting)
    (h : assignWeaponToTarget ents weaponId owner c = some c') :
    TargetingWF c'.targeting := by
  simp only [assignWeaponToTarget] at h
  split at h
  · exact absurd h (by simp)
  · split at h
    · simp only [Option.some.injEq] at h
      rw [← h]
      exact hwf
    · split at h
      · exact absurd h (by simp)
      · rename_i c'' hps
        simp only [Option.some.injEq] at h
        rw [← h]
        exact primaryScan_WF ents weaponId owner.id _ _ c c'' hwf hps
      · rw [specificScan_always_none] at h
        simp only [Option.some.injEq] at h
        rw [← h]
        exact hwf

theorem assignSlots_WF {ents : List Entity} {owner : Entity} :
    ∀ (slots : List (Option Nat)) (c c' : Components), TargetingWF c.targeting →
      assignSlots ents owner slots c = some c' → TargetingWF c'.targeting := by
  intro slots
  induction slots with
  | nil =>
    intro c c' hwf h
    simp only [assignSlots, Option.some.injEq] at h
    rw [← h]
    exact hwf
  | cons slot rest ih =>
    intro c c' hwf h
    cases slot with
    | none => exact ih c c' hwf h
    | some weaponId =>
      simp only [assignSlots] at h
      cases hw : assignWeaponToTarget ents weaponId owner c with
      | none =>
        rw [hw] at h
        simp at h
      | some c1 =>
        rw [hw] at h
        exact ih c1 c' (assignWeaponToTarget_WF hwf hw) h

theorem assignLoop_WF {ents : List Entity} {aFlag eFlag : Bool} :
    ∀ (l : List Entity) (c c' : Components), TargetingWF c.targeting →
      assignLoop ents aFlag eFlag l c = some c' → TargetingWF c'.targeting := by
  intro l
  induction l with
  | nil =>
    intro c c' hwf h
    simp only [assignLoop, Option.some.injEq] at h
    rw [← h]
    exact hwf
  | cons e rest ih =>
    intro c c' hwf h
    simp only [assignLoop] at h
    by_cases h1 : (e.type == EntityType.AGENT && aFlag) = true
    · rw [if_pos h1] at h
      cases hw : assignEntityWeapons ents e c with
      | none =>
        rw [hw] at h
        simp at h
      | some c1 =>
        rw [hw] at h
        have hwf1 : TargetingWF c1.targeting := by
          simp only [assignEntityWeapons] at hw
          cases hs : getK c.weaponSlots e.id with
          | none =>
            rw [hs] at hw
            simp at hw
          | some slots =>
            rw [hs] at hw
            exact assignSlots_WF slots c c1 hwf hw
        exact ih c1 c' hwf1 h
    · rw [if_neg h1] at h
      by_cases h2 : (e.type == EntityType.ENEMY && eFlag) = true
      · rw [if_pos h2] at h
        cases hw : assignEntityWeapons ents e c with
        | none =>
          rw [hw] at h
          simp at h
        | some c1 =>
          rw [hw] at h
          have hwf1 : TargetingWF c1.targeting := by
            simp only [assignEntityWeapons] at hw
            cases hs : getK c.weaponSlots e.id with
            | none =>
              rw [hs] at hw
              simp at hw
            | some slots =>
              rw [hs] at hw
              exact assignSlots_WF slots c c1 hwf hw
          exact ih c1 c' hwf1 h
      · rw [if_neg h2] at h
        exact ih c c' hwf h

theorem waUpdate_WF {aFlag eFlag : Bool} {s s' : State}
    (h : waUpdate aFlag eFlag s = some s') :
    TargetingWF s'.components.targeting := by
  simp only [waUpdate] at h
  cases hA : assignLoop s.entities aFlag eFlag s.entities
      { s.components with targeting := [] } with
  | none =>
    rw [hA] at h
    simp at h
  | some c' =>
    rw [hA] at h
    simp only [Option.some.injEq] at h
    rw [← h]
    exact assignLoop_WF _ _ _ ⟨List.Pairwise.nil, by simp⟩ hA

/-- Claim C6: throughout and after an assignment pass each weapon id is
the source of at most one enabled `Targeting` entry: every single
`assignWeaponToTarget` call preserves the targeting object's
well-formedness (unique ascending keys, source = key) — the shape every
intermediate targeting object of a pass has, starting from the cleared
object — well-formedness bounds the number of enabled entries with a
given source by one, after a full pass the bound holds for every
weapon id, and (Scenario E) a weapon whose only candidate is already
targeted by itself gets no assignment rather than a duplicate link. -/
theorem c6_one_target_per_weapon :
    (∀ (ents : List Entity) (weaponId : Nat) (owner : Entity)
       (c c' : Components), TargetingWF c.targeting →
       assignWeaponToTarget ents weaponId owner c = some c' →
       TargetingWF c'.targeting) ∧
    (∀ tg, TargetingWF tg → ∀ w,
      tg.countP (fun kv => kv.2.source == w && kv.2.enabled) ≤ 1) ∧
    (∀ (aFlag eFlag : Bool) (s s' : State), waUpdate aFlag eFlag s = some s' →
      ∀ w, s'.components.targeting.countP
        (fun kv => kv.2.source == w && kv.2.enabled) ≤ 1) ∧
    assignWeaponToTarget [⟨0, "agent", none⟩, ⟨3, "enemy", none⟩] 2
      ⟨0, "agent", none⟩ scenEStore = some scenEStore :=
  ⟨fun _ _ _ _ _ hwf h => assignWeaponToTarget_WF hwf h,
   fun _ hwf w => targetingWF_countP hwf w,
   fun _ _ _ _ h w => targetingWF_countP (waUpdate_WF h) w,
   by decide⟩

/-- Witness for C6: the well-formedness hypothesis is satisfiable — on
the Scenario E store the per-call conjunct applies concretely. -/
theorem c6_one_target_per_weapon_witness :
    TargetingWF scenEStore.targeting :=
  c6_one_target_per_weapon.1 [⟨0, "agent", none⟩, ⟨3, "enemy", none⟩] 2
    ⟨0, "agent", none⟩ scenEStore scenEStore
    ⟨by simp [scenEStore], by simp [scenEStore]⟩ (by decide)

/-! ## Claim C1 -/

theorem countP_setK_self {α : Type} {m : List (Nat × α)} (k : Nat) (v : α)
    (hp : m.Pairwise (fun a b => a.1 < b.1)) :
    (setK m k v).countP (fun kv => kv.1 == k) = 1 := by
  have hle : (setK m k v).countP (fun kv => kv.1 == k) ≤ 1 := by
    refine countP_le_one_of_keys k (pairwiseKeys_setK k v hp) _ ?_
    intro kv _ hkv
    exact beq_iff_eq.mp hkv
  have hmem : (k, v) ∈ setK m k v := getK_mem (getK_setK_self m k v)
  have hpos : 0 < (setK m k v).countP (fun kv => kv.1 == k) :=
    List.countP_pos_iff.mpr ⟨(k, v), hmem, by simp⟩
  omega

theorem primaryScan_append_skip (ents : List Entity) (weaponId ownerId : Nat)
    (weaponType : String) (c : Components) :
    ∀ (ts1 rest : List String),
      (∀ t' ∈ ts1, primarySkipped ents weaponId ownerId weaponType c t') →
      primaryScan ents weaponId ownerId weaponType c (ts1 ++ rest)
        = primaryScan ents weaponId ownerId weaponType c rest := by
  intro ts1
  induction ts1 with
  | nil =>
    intro rest _
    rfl
  | cons t' ts ih =>
    intro rest hskip
    have hs := hskip t' (by simp)
    rw [List.cons_append]
    cases hc : primaryCandidate ents weaponId c.targeting t' with
    | none =>
      simp only [primaryScan, hc]
      exact ih rest (fun x hx => hskip x (by simp [hx]))
    | some cand =>
      simp only [primarySkipped, hc] at hs
      obtain ⟨sp, tpos, range, hsp, htp, hr, hnle⟩ := hs
      simp only [primaryScan, hc, hsp, htp, hr, if_neg hnle]
      exact ih rest (fun x hx => hskip x (by simp [hx]))

/-- Claim C1: a weapon whose type has a preference record filters its
`primary` list to the owner's valid opposing classes (`enemy` and
`target-part` for an agent owner, `agent` for an enemy owner), then
walks the surviving types in list order, selecting for each the first
entity of that type in store order not already targeted by this
weapon; as soon as such a selected candidate lies within the weapon's
maximum range, exactly one `Targeting` entry
`{source: weaponId, target: candidate, color, enabled}` is recorded
for this weapon and processing stops. -/
theorem c1_primary_assignment (ents : List Entity) (weaponId : Nat)
    (owner : Entity) (c : Components) (weaponType : String)
    (tp : TargetPrefs) (ts1 ts2 : List String) (t : String) (cand : Entity)
    (sp tpos : Pos) (range : ℤ × ℤ)
    (hw : getK c.weapon weaponId = some weaponType)
    (hcfg : WeaponTargetConfig weaponType = some tp)
    (hfilt : tp.primary.filter
        (fun ty => (validTargetTypes owner.type).contains ty)
      = ts1 ++ t :: ts2)
    (hskip : ∀ t' ∈ ts1, primarySkipped ents weaponId owner.id weaponType c t')
    (hcand : primaryCandidate ents weaponId c.targeting t = some cand)
    (hsp : getK c.position owner.id = some sp)
    (htp : getK c.position cand.id = some tpos)
    (hrange : WeaponRangeConfig weaponType = some range)
    (hin : distSq sp tpos ≤ range.2 ^ 2)
    (hwf : c.targeting.Pairwise (fun a b => a.1 < b.1)) :
    validTargetTypes EntityType.AGENT
      = [EntityType.ENEMY, EntityType.TARGET_PART] ∧
    validTargetTypes EntityType.ENEMY = [EntityType.AGENT] ∧
    assignWeaponToTarget ents weaponId owner c
      = some { c with targeting := (setK c.targeting weaponId
          ⟨weaponId, cand.id, getWeaponColor weaponType, true⟩) } ∧
    (setK c.targeting weaponId
        ⟨weaponId, cand.id, getWeaponColor weaponType, true⟩).countP
      (fun kv => kv.1 == weaponId) = 1 := by
  refine ⟨by decide, by decide, ?_, countP_setK_self weaponId _ hwf⟩
  have hmain : primaryScan ents weaponId owner.id weaponType c (ts1 ++ t :: ts2)
      = some (some { c with targeting := (setK c.targeting weaponId
          ⟨weaponId, cand.id, getWeaponColor weaponType, true⟩) }) := by
    rw [primaryScan_append_skip ents weaponId owner.id weaponType c ts1
      (t :: ts2) hskip]
    simp only [primaryScan, hcand, hsp, htp, hrange, if_pos hin]
  simp only [assignWeaponToTarget, hw, hcfg, hfilt, hmain]

/-- Witness for C1 at the melee weapon of the demo store: the filtered
preference list is `["enemy", "target-part"]`, the first `enemy`
candidate (entity 3) is in melee range, and exactly one entry is
recorded. -/
theorem c1_primary_assignment_witness :
    validTargetTypes EntityType.AGENT
      = [EntityType.ENEMY, EntityType.TARGET_PART] ∧
    validTargetTypes EntityType.ENEMY = [EntityType.AGENT] ∧
    assignWeaponToTarget demoA.entities 2 ⟨0, "agent", none⟩
        { demoA.components with targeting := [] }
      = some { { demoA.components with targeting := [] } with
          targeting := (setK ([] : List (Nat × TargetingC)) 2
            ⟨2, 3, getWeaponColor "melee", true⟩) } ∧
    (setK ([] : List (Nat × TargetingC)) 2
        ⟨2, 3, getWeaponColor "melee", true⟩).countP
      (fun kv => kv.1 == 2) = 1 :=
  c1_primary_assignment demoA.entities 2 ⟨0, "agent", none⟩
    { demoA.components with targeting := [] } "melee"
    ⟨["agent", "enemy", "target-part"], []⟩ [] ["target-part"] "enemy"
    ⟨3, "enemy", none⟩ ⟨0, 0⟩ ⟨0, 1⟩ (1, 1)
    (by decide) (by decide) (by decide) (by simp)
    (by decide) (by decide) (by decide) (by decide) (by decide)
    List.Pairwise.nil

/-! ## Spawn helper facts -/

theorem slotsAddWeapon_length : ∀ (slots : List (Option Nat)) (w : Nat),
    (slotsAddWeapon slots w).1.length = slots.length := by
  intro slots w
  induction slots with
  | nil => rfl
  | cons slot rest ih =>
    cases slot with
    | none => rfl
    | some occupied => simpa [slotsAddWeapon] using ih

theorem slotsAddWeapon_full : ∀ (slots : List (Option Nat)) (w : Nat),
    (∀ o ∈ slots, o ≠ none) → slotsAddWeapon slots w = (slots, true) := by
  intro slots w
  induction slots with
  | nil => intro _; rfl
  | cons slot rest ih =>
    intro hfull
    cases slot with
    | none => exact absurd rfl (hfull none (by simp))
    | some occupied =>
      have := ih (fun o ho => hfull o (by simp [ho]))
      simp [slotsAddWeapon, this]

theorem addWeaponToEntity_spec {s : State} {eid : Nat} {wt : String}
    {s' : State} {warned : Bool}
    (h : addWeaponToEntity s eid wt = some (s', warned)) :
    s'.entities = s.entities ∧ s'.nodeId = s.nodeId + 1 ∧
    ∃ slots, getK s.components.weaponSlots eid = some slots ∧
      warned = (slotsAddWeapon slots s.nodeId).2 ∧
      s'.components.weaponSlots
        = setK s.components.weaponSlots eid (slotsAddWeapon slots s.nodeId).1 := by
  simp only [addWeaponToEntity] at h
  split at h
  · exact absurd h (by simp)
  · split at h
    · exact absurd h (by simp)
    · rename_i pos hpos slots hslots
      simp only [Option.some.injEq, Prod.mk.injEq] at h
      obtain ⟨hstate, hwarn⟩ := h
      exact ⟨by rw [← hstate], by rw [← hstate], slots, hslots, hwarn.symm,
        by rw [← hstate]⟩

theorem addWeaponToEntity_capOK {s : State} {eid : Nat} {wt : String}
    {s' : State} {warned : Bool} (hcap : SlotsCapOK s)
    (h : addWeaponToEntity s eid wt = some (s', warned)) : SlotsCapOK s' := by
  obtain ⟨_, _, slots, hslots, _, hmap⟩ := addWeaponToEntity_spec h
  intro eid' slots' hget
  rw [hmap] at hget
  by_cases hk : eid' = eid
  · subst hk
    rw [getK_setK_self] at hget
    cases hget
    rw [slotsAddWeapon_length]
    exact hcap eid' slots hslots
  · rw [getK_setK_ne _ _ _ _ hk] at hget
    exact hcap eid' slots' hget

theorem addParts_spec (enemyId : Nat) : ∀ (parts : List String)
    (xys : List (ℤ × ℤ)) (s : State),
    (addParts enemyId parts xys s).entities = s.entities ∧
    (addParts enemyId parts xys s).components.weaponSlots
      = s.components.weaponSlots := by
  intro parts
  induction parts with
  | nil =>
    intro xys s
    exact ⟨rfl, rfl⟩
  | cons p ps ih =>
    intro xys s
    cases xys with
    | nil => exact ⟨rfl, rfl⟩
    | cons xy rest =>
      have := ih rest (addTargetPartToEntity s enemyId p xy.1 xy.2)
      simpa [addParts, addTargetPartToEntity] using this

theorem addAgent_spec {ax ay : ℤ} {wt : String} {s s' : State}
    (h : addAgent ax ay wt s = some s') :
    s'.entities = s.entities ++ [⟨s.nodeId, EntityType.AGENT, none⟩] ∧
    (SlotsCapOK s → SlotsCapOK s') := by
  simp only [addAgent, addEntity] at h
  split at h
  · exact absurd h (by simp)
  · rename_i r3 s3 w3 h3
    split at h
    · exact absurd h (by simp)
    · rename_i r4 s4 w4 h4
      simp only [Option.some.injEq] at h
      subst h
      obtain ⟨he3, _, _⟩ := addWeaponToEntity_spec h3
      obtain ⟨he4, _, _⟩ := addWeaponToEntity_spec h4
      constructor
      · rw [he4, he3]
      · intro hcap
        refine addWeaponToEntity_capOK (addWeaponToEntity_capOK ?_ h3) h4
        intro eid slots hget
        simp only at hget
        by_cases hk : eid = s.nodeId
        · subst hk
          rw [getK_setK_self] at hget
          cases hget
          simp
        · rw [getK_setK_ne _ _ _ _ hk] at hget
          exact hcap eid slots hget

theorem addEnemyWeapon_spec {extra : Bool} {eid : Nat} {wt : String}
    {s s' : State} (h : addEnemyWeapon extra eid wt s = some s') :
    s'.entities = s.entities ∧ (SlotsCapOK s → SlotsCapOK s') := by
  simp only [addEnemyWeapon] at h
  split at h
  · split at h
    · exact absurd h (by simp)
    · rename_i r1 s1 w1 h1
      simp only [Option.some.injEq] at h
      subst h
      obtain ⟨he, _, _⟩ := addWeaponToEntity_spec h1
      exact ⟨he, fun hcap => addWeaponToEntity_capOK hcap h1⟩
  · simp only [Option.some.injEq] at h
    subst h
    exact ⟨rfl, fun hcap => hcap⟩

theorem addEnemy_spec {choice : String} {ex ey : ℤ} {partXY : List (ℤ × ℤ)}
    {s s' : State} (h : addEnemy choice ex ey partXY s = some s') :
    s'.entities = s.entities ++ [⟨s.nodeId, EntityType.ENEMY, none⟩] ∧
    (SlotsCapOK s → SlotsCapOK s') := by
  simp only [addEnemy, addEntity] at h
  split at h
  · exact absurd h (by simp)
  · rename_i baseHealth hstats
    split at h
    · exact absurd h (by simp)
    · rename_i s3 h3
      split at h
      · exact absurd h (by simp)
      · rename_i s4 h4
        split at h
        · exact absurd h (by simp)
        · rename_i s5 h5
          split at h
          · exact absurd h (by simp)
          · rename_i s6 h6
            simp only [Option.some.injEq] at h
            subst h
            obtain ⟨he3, hc3⟩ := addEnemyWeapon_spec h3
            obtain ⟨he4, hc4⟩ := addEnemyWeapon_spec h4
            obtain ⟨he5, hc5⟩ := addEnemyWeapon_spec h5
            obtain ⟨he6, hc6⟩ := addEnemyWeapon_spec h6
            obtain ⟨hpe, hpw⟩ := addParts_spec s.nodeId (EnemyPartsConfig choice) partXY s6
            constructor
            · rw [hpe, he6, he5, he4, he3]
            · intro hcap
              have hcap2 : SlotsCapOK { s with
                  entities := s.entities ++ [⟨s.nodeId, EntityType.ENEMY, none⟩],
                  nodeId := s.nodeId + 1,
                  components := { s.components with
                    position := setK s.components.position s.nodeId ⟨ex, ey⟩,
                    health := setK s.components.health s.nodeId baseHealth,
                    enemyType := setK s.components.enemyType s.nodeId choice,
                    weaponSlots := setK s.components.weaponSlots s.nodeId
                      (List.replicate 2 none) } } := by
                intro eid slots hget
                simp only at hget
                by_cases hk : eid = s.nodeId
                · subst hk
                  rw [getK_setK_self] at hget
                  cases hget
                  simp
                · rw [getK_setK_ne _ _ _ _ hk] at hget
                  exact hcap eid slots hget
              have hcap6 := hc6 (hc5 (hc4 (hc3 hcap2)))
              intro eid slots hget
              rw [hpw] at hget
              exact hcap6 eid slots hget

theorem reachable_types {s : State} (h : Reachable s) :
    ∀ e ∈ s.entities, e.type = EntityType.AGENT ∨ e.type = EntityType.ENEMY := by
  induction h with
  | init => simp [initState]
  | addAgent ax ay wt hreach heq ih =>
    rw [(addAgent_spec heq).1]
    intro e he
    rcases List.mem_append.mp he with he | he
    · exact ih e he
    · left
      simp at he
      rw [he]
  | addEnemy choice ex ey partXY hreach heq ih =>
    rw [(addEnemy_spec heq).1]
    intro e he
    rcases List.mem_append.mp he with he | he
    · exact ih e he
    · right
      simp at he
      rw [he]
  | assign aFlag eFlag hreach heq ih =>
    obtain ⟨tg, rfl⟩ := waUpdate_shape heq
    exact ih
  | damage hit hreach heq ih =>
    intro e he
    exact ih e ((damageLinks_main hit _ _ _ heq).1 e he)

theorem reachable_capOK {s : State} (h : Reachable s) : SlotsCapOK s := by
  induction h with
  | init =>
    intro eid slots hget
    simp [initState, getK] at hget
  | addAgent ax ay wt hreach heq ih => exact (addAgent_spec heq).2 ih
  | addEnemy choice ex ey partXY hreach heq ih => exact (addEnemy_spec heq).2 ih
  | assign aFlag eFlag hreach heq ih =>
    obtain ⟨tg, rfl⟩ := waUpdate_shape heq
    intro eid slots hget
    exact ih eid slots hget
  | damage hit hreach heq ih =>
    intro eid slots hget
    exact ih eid slots ((damageLinks_main hit _ _ _ heq).2.1 eid slots hget)

/-! ## Claim C10 -/

/-- Claim C10: `addWeaponToEntity` and `addTargetPartToEntity` allocate
a fresh id from the shared counter but never append an entity record;
consequently, in every state reachable through the program's surface,
the entity registry holds only agents and enemies, and any `find` over
it can only return an agent or an enemy. -/
theorem c10_registry_only_agents_enemies :
    (∀ (s : State) (eid : Nat) (wt : String) (s' : State) (warned : Bool),
      addWeaponToEntity s eid wt = some (s', warned) →
      s'.entities = s.entities ∧ s'.nodeId = s.nodeId + 1) ∧
    (∀ (s : State) (eid : Nat) (pt : String) (px py : ℤ),
      (addTargetPartToEntity s eid pt px py).entities = s.entities ∧
      (addTargetPartToEntity s eid pt px py).nodeId = s.nodeId + 1) ∧
    (∀ s : State, Reachable s → ∀ e ∈ s.entities,
      e.type = EntityType.AGENT ∨ e.type = EntityType.ENEMY) ∧
    (∀ (s : State) (p : Entity → Bool) (e : Entity), Reachable s →
      s.entities.find? p = some e →
      e.type = EntityType.AGENT ∨ e.type = EntityType.ENEMY) :=
  ⟨fun _ _ _ _ _ h =>
    ⟨(addWeaponToEntity_spec h).1, (addWeaponToEntity_spec h).2.1⟩,
   fun _ _ _ _ _ => ⟨rfl, rfl⟩,
   fun _ hr => reachable_types hr,
   fun _ _ e hr hfind =>
     reachable_types hr e (List.mem_of_find?_eq_some hfind)⟩

/-- Witness for C10: the state spawned by one `api.addAgent` call is
reachable, and the theorem classifies its only registry entry. -/
theorem c10_registry_only_agents_enemies_witness :
    (⟨0, "agent", none⟩ : Entity).type = EntityType.AGENT ∨
    (⟨0, "agent", none⟩ : Entity).type = EntityType.ENEMY :=
  c10_registry_only_agents_enemies.2.2.1 spawnedAgent
    (Reachable.addAgent 5 6 "melee" Reachable.init (by decide))
    ⟨0, "agent", none⟩ (by decide)

/-! ## Claim C8 -/

/-- Counterexample to C8 as stated: adding a weapon to entity 0 of
`fullSlotsStore`, whose two slots are both occupied, does warn and
leaves the weapon slots untouched — but it does **not** leave the store
unchanged: a fresh weapon id is consumed and `weapon`/`position`
components are created for it. -/
theorem c8_full_slots_counterexample :
    (addWeaponToEntity fullSlotsStore 0 "pistol").map Prod.snd = some true ∧
    (addWeaponToEntity fullSlotsStore 0 "pistol").map
        (fun r => getK r.1.components.weaponSlots 0)
      = some (getK fullSlotsStore.components.weaponSlots 0) ∧
    (addWeaponToEntity fullSlotsStore 0 "pistol").map Prod.fst
      ≠ some fullSlotsStore := by decide

/-- Claim C8 (amended): adding a weapon to an entity with no empty slot
is non-fatal — it surfaces the warning flag, does not throw, and leaves
the entity's weapon slots (though not the whole store: a fresh id,
weapon component and position component are still created) unchanged;
slot counts never exceed the capacity fixed at creation, which in every
reachable state is 7 (agents) or 2 (enemies). -/
theorem c8_slot_capacity :
    (∀ (slots : List (Option Nat)) (w : Nat),
      (slotsAddWeapon slots w).1.length = slots.length) ∧
    (∀ (slots : List (Option Nat)) (w : Nat), (∀ o ∈ slots, o ≠ none) →
      slotsAddWeapon slots w = (slots, true)) ∧
    (∀ (s : State) (eid : Nat) (wt : String) (s' : State) (warned : Bool),
      addWeaponToEntity s eid wt = some (s', warned) →
      ∀ slots, getK s.components.weaponSlots eid = some slots →
      (∀ o ∈ slots, o ≠ none) →
      warned = true ∧ getK s'.components.weaponSlots eid = some slots ∧
      s'.entities = s.entities) ∧
    (∀ s : State, Reachable s → ∀ eid slots,
      getK s.components.weaponSlots eid = some slots →
      (slots.length = 7 ∨ slots.length = 2) ∧
      slots.countP (fun o => o.isSome) ≤ slots.length) := by
  refine ⟨slotsAddWeapon_length, slotsAddWeapon_full, ?_, ?_⟩
  · intro s eid wt s' warned h slots hget hfull
    obtain ⟨hent, _, slots0, hslots0, hwarn, hmap⟩ := addWeaponToEntity_spec h
    rw [hget] at hslots0
    cases hslots0
    rw [slotsAddWeapon_full slots s.nodeId hfull] at hwarn hmap
    refine ⟨hwarn, ?_, hent⟩
    rw [hmap, getK_setK_self]
  · intro s hr eid slots hget
    exact ⟨reachable_capOK hr eid slots hget, List.countP_le_length _⟩

/-- Witness for C8: the full-slot no-op conjunct applied to a concrete
fully occupied slot list. -/
theorem c8_slot_capacity_witness :
    slotsAddWeapon [some 1, some 2] 3 = ([some 1, some 2], true) :=
  c8_slot_capacity.2.1 [some 1, some 2] 3 (by decide)

end WTA
